import Mathlib

/-!
# Verification of the agnosticmapper pipeline

Shallow embedding of `agnosticmapper/agnosticmapper.py` (class `Mapper`).

Canonical JSON values are modelled by the inductive type `Json` (numbers are
restricted to integers; none of the verified properties involve floats).
Python dictionaries are modelled as insertion-ordered association lists with
unique keys: assignment `d[k] = v` keeps the original position of an existing
key (`dinsert`), `len` is the number of entries, and `d.update(e)` assigns all
entries of `e` in order (`dupdate`).

The rdflib graph and the SPARQL queries that seed the label maps are external
collaborators; the label index they produce is modelled abstractly by
`LabelMaps` (two language-indexed families of partial maps from label text to
class IRI, mirroring `self.labelmaps` / `self.altlabelmaps`).

Python exceptions are modelled by `Except PyErr`; `uuid4` is modelled by a
caller-supplied token stream `tok : Nat → String` consumed by a counter,
mirroring the fact that each call to `gen_uuid` produces a fresh token.
-/

/-- A canonical JSON value / Python object, as handled by the mapper. -/
inductive Json where
  | null
  | bool (b : Bool)
  | int (n : Int)
  | str (s : String)
  | arr (xs : List Json)
  | obj (fields : List (String × Json))

mutual
/-- Structural (Python `==`) equality on `Json` values. Comparisons across
different types are `false`, as for the values the mapper handles. -/
def jeq : Json → Json → Bool
  | .null, .null => true
  | .bool a, .bool b => a == b
  | .int a, .int b => a == b
  | .str a, .str b => a == b
  | .arr a, .arr b => jeqList a b
  | .obj a, .obj b => jeqFields a b
  | _, _ => false

def jeqList : List Json → List Json → Bool
  | [], [] => true
  | a :: as, b :: bs => jeq a b && jeqList as bs
  | _, _ => false

def jeqFields : List (String × Json) → List (String × Json) → Bool
  | [], [] => true
  | (k, v) :: as, (l, w) :: bs => k == l && jeq v w && jeqFields as bs
  | _, _ => false
end

instance : BEq Json := ⟨jeq⟩

/-- Python truthiness (`bool(x)`) for the values of `Json`. -/
def falsy : Json → Bool
  | .null => true
  | .bool b => !b
  | .int n => n == 0
  | .str s => s == ""
  | .arr xs => xs.isEmpty
  | .obj fs => fs.isEmpty

/-- The single-quote character, used by Python `repr` of strings. -/
def squote : String := String.singleton (Char.ofNat 39)

mutual
/-- Python `repr` of a value (used inside container formatting). -/
def pyRepr : Json → String
  | .null => "None"
  | .bool true => "True"
  | .bool false => "False"
  | .int n => toString n
  | .str s => squote ++ s ++ squote
  | .arr xs => "[" ++ String.intercalate ", " (pyReprList xs) ++ "]"
  | .obj fs => "\x7b" ++ String.intercalate ", " (pyReprFields fs) ++ "\x7d"

def pyReprList : List Json → List String
  | [] => []
  | x :: xs => pyRepr x :: pyReprList xs

def pyReprFields : List (String × Json) → List String
  | [] => []
  | (k, v) :: fs => (squote ++ k ++ squote ++ ": " ++ pyRepr v) :: pyReprFields fs
end

/-- Python `str(x)` (equals `repr` except that strings print verbatim).
Used by the f-strings that build interim identifiers. -/
def pyStr : Json → String
  | .str s => s
  | j => pyRepr j

/-- `is_primitive`: membership in Python's `(bool, int, float, str)`.
Note that `None` is *not* primitive. -/
def is_primitive : Json → Bool
  | .bool _ => true
  | .int _ => true
  | .str _ => true
  | _ => false

/-- Dictionary entry list (insertion-ordered, keys unique by construction). -/
abbrev Dict := List (String × Json)

/-- `d[k]` / `d.get(k)` (first entry with the key). -/
def dlookup (d : List (String × α)) (k : String) : Option α :=
  (d.find? (fun p => p.1 == k)).map (·.2)

/-- `k in d` for a dictionary. -/
def dcontains (d : List (String × α)) (k : String) : Bool :=
  (dlookup d k).isSome

/-- `d[k] = v`: overwrite in place if the key exists, else append. -/
def dinsert (d : List (String × α)) (k : String) (v : α) : List (String × α) :=
  if dcontains d k then d.map (fun p => if p.1 == k then (k, v) else p)
  else d ++ [(k, v)]

/-- `d.update(e)`: assign every entry of `e` into `d`, in order. -/
def dupdate (d e : List (String × α)) : List (String × α) :=
  e.foldl (fun acc p => dinsert acc p.1 p.2) d

/-- The keys of a dictionary, in order. -/
def dkeys (d : List (String × α)) : List String := d.map (·.1)

/-- `s.startswith(pre)` over the character list (kernel-computable version
of `String.startsWith`). -/
def listStartsWith : List Char → List Char → Bool
  | _, [] => true
  | [], _ :: _ => false
  | c :: cs, p :: ps => c == p && listStartsWith cs ps

def pyStartsWith (s pre : String) : Bool := listStartsWith s.data pre.data

/-- `str.strip()` (kernel-computable version of `String.trim`). -/
def pyStrip (s : String) : String :=
  String.mk (((s.data.dropWhile Char.isWhitespace).reverse.dropWhile
    Char.isWhitespace).reverse)

/-- `s[:n]` (kernel-computable version of `String.take`). -/
def pyTake (s : String) (n : Nat) : String := String.mk (s.data.take n)

/-- One fueled pass of `str.replace` over the character list: at each
position, a (non-empty) pattern match is replaced and skipped, otherwise one
character is kept.  Fuel above the string length makes it total. -/
def replaceFuel (pat rep : List Char) : Nat → List Char → List Char
  | 0, s => s
  | _ + 1, [] => []
  | fuel + 1, c :: cs =>
    if listStartsWith (c :: cs) pat && !pat.isEmpty then
      rep ++ replaceFuel pat rep fuel (List.drop (pat.length - 1) cs)
    else c :: replaceFuel pat rep fuel cs

/-- `s.replace(pat, rep)` for a non-empty pattern (kernel-computable version
of `String.replace`; the mapper only replaces the non-empty target-namespace
IRI). -/
def pyReplace (s pat rep : String) : String :=
  String.mk (replaceFuel pat.data rep.data (s.data.length + 1) s.data)

/-- The label index built by `__create_labelmaps`: `labelmaps` holds the
`rdfs:label` entries and `altlabelmaps` the `skos:altLabel` entries, each
partitioned by language tag (`"nolang"` for untagged labels). -/
structure LabelMaps where
  labelmaps : String → String → Option String
  altlabelmaps : String → String → Option String

/-- Python exceptions raised (or caught) by the mapper. -/
inductive PyErr where
  /-- `Exception(f"Error finding class for label {label}")`. -/
  | labelNotFound (label : Json)
  /-- `TypeError` (unhashable key, or `in` on a non-container). -/
  | typeError
  /-- `AttributeError` (e.g. `.strip()` on a non-string). -/
  | attributeError
  /-- `IndexError` (e.g. `key[0]` on an empty key). -/
  | indexError
  /-- Artifact of the shallow embedding: the recursion fuel ran out.  The
  fueled traversals are run with fuel exceeding the input's weight, which
  bounds the recursion depth, so this case is never reached from the
  top-level wrappers. -/
  | fuelExhausted

/-- `Mapper.__get_class_by_label`: resolve a label against the ten label maps
in the source's order, returning `default` when the label is a list, and
applying the not-found policy (`default` if truthy, else raise) otherwise.
A non-string, non-list label is hashable (or, for a dict, raises `TypeError`)
and matches nothing because every map key is label text. -/
def get_class_by_label (M : LabelMaps) (label : Json) (default : Json) :
    Except PyErr Json :=
  match label with
  | .arr _ => .ok default
  | .obj _ => .error .typeError
  | .str s =>
    match M.altlabelmaps "en" s with
    | some c => .ok (.str c)
    | none =>
    match M.altlabelmaps "en-us" s with
    | some c => .ok (.str c)
    | none =>
    match M.altlabelmaps "en-gb" s with
    | some c => .ok (.str c)
    | none =>
    match M.altlabelmaps "nolang" s with
    | some c => .ok (.str c)
    | none =>
    match M.labelmaps "en" s with
    | some c => .ok (.str c)
    | none =>
    match M.labelmaps "en-us" s with
    | some c => .ok (.str c)
    | none =>
    match M.labelmaps "en-gb" s with
    | some c => .ok (.str c)
    | none =>
    match M.labelmaps "nolang" s with
    | some c => .ok (.str c)
    | none =>
    match M.altlabelmaps "de" s with
    | some c => .ok (.str c)
    | none =>
    match M.labelmaps "de" s with
    | some c => .ok (.str c)
    | none =>
      if falsy default then .error (.labelNotFound (.str s)) else .ok default
  | l =>
      if falsy default then .error (.labelNotFound l) else .ok default

/-- A label index with no entries at all. -/
def emptyLabelMaps : LabelMaps := ⟨fun _ _ => none, fun _ _ => none⟩

/-- The search order of §4.2 of the spec, written as a first-hit scan over the
ten maps in the spelled-out order (this is the *spec side* of the refinement;
`get_class_by_label` above is the code side). -/
def resolveSpecOrder (M : LabelMaps) (s : String) : Option String :=
  [M.altlabelmaps "en", M.altlabelmaps "en-us", M.altlabelmaps "en-gb",
   M.altlabelmaps "nolang", M.labelmaps "en", M.labelmaps "en-us",
   M.labelmaps "en-gb", M.labelmaps "nolang", M.altlabelmaps "de",
   M.labelmaps "de"].findSome? (fun m => m s)

/-- Scalar (non-container) values: labels of these kinds are hashable and
never short-circuit the map search. -/
def scalarJson : Json → Bool
  | .arr _ => false
  | .obj _ => false
  | _ => true

/-- "No label map contains the label": for a string label, the first-hit scan
finds nothing; labels of other kinds never occur as map keys. -/
def noMapHit (M : LabelMaps) (label : Json) : Prop :=
  match label with
  | .str s => resolveSpecOrder M s = none
  | _ => True

/-- `__create_entity_instation_entity_list`: resolve every ignore-list label
in order, with the label itself as default. -/
def create_entity_instation_entity_list (M : LabelMaps) :
    List String → Except PyErr (List Json)
  | [] => .ok []
  | e :: rest => do
    let r ← get_class_by_label M (.str e) (.str e)
    let rs ← create_entity_instation_entity_list M rest
    .ok (r :: rs)

/-- The default of the `label`-predicate resolution in the source. -/
def rdfsLabel : String := "http://www.w3.org/2000/01/rdf-schema#label"

/-- A resolver call whose label and default are both strings; the result of
`__get_class_by_label` is then always a string (`pyStr` of the result is the
identity on the reachable `.str` case). -/
def resolveKey (M : LabelMaps) (s d : String) : Except PyErr String := do
  match ← get_class_by_label M (.str s) (.str d) with
  | .str c => .ok c
  | j => .ok (pyStr j)

/-- Mutable state of one `__create_jsonld_instances` run: the incremental
counter backing `get_incremental_int` and the non-local `classMap`. -/
structure FillState where
  counter : Nat
  classMap : List (String × Dict)

/-- `value.get(h, h)` where `h = value["hasIdentifier"]`: a string key is
looked up (defaulting to itself), other hashable values are never dictionary
keys of a parsed JSON object and default to themselves, and an unhashable
value (`list`/`dict`) raises — `none` here, caught by the `except`. -/
def pyGet (fs : Dict) (h : Json) : Option Json :=
  match h with
  | .str s => some ((dlookup fs s).getD h)
  | .arr _ => none
  | .obj _ => none
  | _ => some h

/-- The interim-identifier computation of `__fill_class_map` (the
`try`/`except` block): `f"{key}_{value.get(value['hasIdentifier'],
value['hasIdentifier'])}"`, falling back to `f"{key}_{get_incremental_int()}"`
on any failure. -/
def interimId (st : FillState) (key : String) (fs : Dict) : FillState × String :=
  match dlookup fs "hasIdentifier" with
  | some h =>
    match pyGet fs h with
    | some idv => (st, key ++ "_" ++ pyStr idv)
    | none => ({ st with counter := st.counter + 1 },
               key ++ "_" ++ toString (st.counter + 1))
  | none => ({ st with counter := st.counter + 1 },
             key ++ "_" ++ toString (st.counter + 1))

/-- The `additionalTypes` loop: append the resolution (with the raw label as
default) of every entry that is truthy and strips to a non-blank string; a
truthy non-string entry has no `.strip()` and raises `AttributeError`. -/
def buildTypes (M : LabelMaps) : List Json → Except PyErr (List Json)
  | [] => .ok []
  | a :: rest =>
    if falsy a then buildTypes M rest
    else
      match a with
      | .str s =>
        if pyStrip s == "" then buildTypes M rest
        else do
          let r ← get_class_by_label M (.str s) (.str s)
          let rs ← buildTypes M rest
          .ok (r :: rs)
      | _ => .error .attributeError

/-- Python substring test `needle in hay` for strings. -/
def isSubstr (needle hay : String) : Bool :=
  (List.range (hay.length + 1)).any (fun i => (hay.drop i).startsWith needle)

/-- `key in tmpListHandler`: list/dict/str membership per Python semantics;
`in` on any other value raises `TypeError`. -/
def inListHandler (lh : Json) (key : String) : Except PyErr Bool :=
  match lh with
  | .arr xs => .ok (xs.contains (.str key))
  | .str s => .ok (isSubstr key s)
  | .obj fs => .ok (dcontains fs key)
  | _ => .error .typeError

/-- The `classMap` insertion at the end of the uppercase-key branch: insert a
new identifier, or `update` the stored descriptor only when the new one has
strictly more keys. -/
def classMapStep (cm : List (String × Dict)) (identifier : String) (ld : Dict) :
    List (String × Dict) :=
  match dlookup cm identifier with
  | none => dinsert cm identifier ld
  | some old =>
    if ld.length > old.length then dinsert cm identifier (dupdate old ld) else cm

mutual
/-- Weight of a value: one per container entry plus one per container.
Every recursive call of the traversals below strictly decreases the weight
of the processed node, so the weight bounds the recursion depth and is used
to compute sufficient fuel for the fueled traversals. -/
def jweight : Json → Nat
  | .obj fs => 1 + fweight fs
  | .arr xs => 1 + lweight xs
  | _ => 0

def lweight : List Json → Nat
  | [] => 0
  | x :: xs => 1 + jweight x + lweight xs

def fweight : List (String × Json) → Nat
  | [] => 0
  | (_, v) :: fs => 1 + jweight v + fweight fs
end


mutual
/-- `__fill_class_map`: dispatch on the node kind. A dict node reads its
`listHandler` directive and processes its items in order; a list node of
primitives becomes literal `@value` wrappers, any other list recurses
per-element (wrapped as `@list` when ordered); any other node is Python's
implicit `return None`.  The `fuel` argument is an embedding artifact (it
makes the recursion structural); every recursive call strictly decreases the
weight of the processed node, so any fuel above the weight behaves like the
unbounded Python recursion. -/
def fill_class_map (fuel : Nat) (M : LabelMaps) (ign : List String)
    (st : FillState) (j : Json) (isOrderedList : Bool) :
    Except PyErr (FillState × Json) :=
  match fuel with
  | 0 => .error .fuelExhausted
  | fuel + 1 =>
    match j with
    | .obj fs => do
      let lh := (dlookup fs "listHandler").getD (.arr [])
      let (st', tmp) ← fillFields fuel M ign st lh fs []
      .ok (st', .obj tmp)
    | .arr xs =>
      if xs.all is_primitive then
        .ok (st, .arr (xs.map (fun v => .obj [("@value", v)])))
      else do
        let (st', tmp) ← fillList fuel M ign st xs
        if isOrderedList then .ok (st', .obj [("@list", .arr tmp)])
        else .ok (st', .arr tmp)
    | _ => .ok (st, .null)

/-- The per-element recursion of the list branch (each with
`isOrderedList = False`). -/
def fillList (fuel : Nat) (M : LabelMaps) (ign : List String) (st : FillState)
    (xs : List Json) : Except PyErr (FillState × List Json) :=
  match fuel with
  | 0 => .error .fuelExhausted
  | fuel + 1 =>
    match xs with
    | [] => .ok (st, [])
    | x :: xs => do
      let (st1, r) ← fill_class_map fuel M ign st x false
      let (st2, rs) ← fillList fuel M ign st1 xs
      .ok (st2, r :: rs)

/-- The `for key, value in iterable.items()` loop of `__fill_class_map`,
accumulating the returned `tmp` dictionary. -/
def fillFields (fuel : Nat) (M : LabelMaps) (ign : List String) (st : FillState)
    (lh : Json) (fields : List (String × Json)) (tmp : Dict) :
    Except PyErr (FillState × Dict) :=
  match fuel with
  | 0 => .error .fuelExhausted
  | fuel + 1 =>
    match fields with
    | [] => .ok (st, tmp)
    | (key, value0) :: rest => do
      if key == "listHandler" then fillFields fuel M ign st lh rest tmp
      else do
        let _cls ← get_class_by_label M (.str key) (.str "default")
        match key.data with
        | [] => .error .indexError
        | c :: _ =>
          if key == "hasIdentifier" then
            -- the value was coerced to `str(value)`, so no branch applies
            fillFields fuel M ign st lh rest tmp
          else
            match value0 with
            | .obj vfs =>
              if c.isUpper then do
                let (st1, identifier) := interimId st key vfs
                if !(vfs.all (fun p => p.1 == "hasIdentifier")) then do
                  let extraTypes ←
                    match dlookup vfs "additionalTypes" with
                    | some (.arr ats) => buildTypes M ats
                    | _ => .ok []
                  let types : List Json := _cls :: extraTypes
                  let labelKey ← resolveKey M "label" rdfsLabel
                  let ldCls : Dict :=
                    dinsert (dinsert (dinsert [] "@type" (.arr types))
                      "@id" (.str identifier)) labelKey (.str key)
                  let lhInner := (dlookup vfs "listHandler").getD (.arr [])
                  let (st2, subFs) ← fillFields fuel M ign st1 lhInner vfs []
                  let ldCls := subFs.foldl
                    (fun acc p =>
                      if p.1 == "hasIdentifier" then acc else dinsert acc p.1 p.2)
                    ldCls
                  let st3 := { st2 with
                    classMap := classMapStep st2.classMap identifier ldCls }
                  fillFields fuel M ign st3 lh rest (dinsert tmp "@id" (.str identifier))
                else
                  fillFields fuel M ign st1 lh rest (dinsert tmp "@id" (.str identifier))
              else if c.isLower then
                let st1 := { st with counter := st.counter + 1 }
                fillFields fuel M ign st1 lh rest (dinsert tmp key
                  (.obj [("@id", .str (key ++ "_sub_" ++ toString (st.counter + 1)))]))
              else
                -- a dict value under a key with an uncased head matches no branch
                fillFields fuel M ign st lh rest tmp
            | .arr xs => do
              let b ← inListHandler lh key
              let (st1, r) ← fill_class_map fuel M ign st (.arr xs) b
              fillFields fuel M ign st1 lh rest (dinsert tmp key r)
            | v =>
              if ign.contains key then do
                let r ← get_class_by_label M v v
                fillFields fuel M ign st lh rest (dinsert tmp key (.obj [("@id", r)]))
              else
                fillFields fuel M ign st lh rest (dinsert tmp key v)
end

/-- `__create_jsonld_instances`: run the structural mapper on the canonical
tree from a fresh state and collect the `classMap` values (fuel above the
tree's weight, so the fueled recursion never runs dry). -/
def create_jsonld_instances (M : LabelMaps) (ign : List String) (canon : Json) :
    Except PyErr (List Json) := do
  let (st, _) ← fill_class_map (jweight canon + 2) M ign ⟨0, []⟩ canon false
  .ok (st.classMap.map (fun p => Json.obj p.2))

mutual
/-- `__set_namespaces`: dict nodes rewrite their keys through the resolver
(`@id` passed through, `@type` values resolved with themselves as default,
`@value` nodes returned verbatim and short-circuiting the remaining items),
lists are mapped element-wise, anything else is Python's implicit `None`. -/
def set_namespaces (M : LabelMaps) : Json → Except PyErr Json
  | .obj fs => nsFields M fs []
  | .arr xs => do
    let rs ← nsList M xs
    .ok (.arr rs)
  | _ => .ok .null

def nsList (M : LabelMaps) : List Json → Except PyErr (List Json)
  | [] => .ok []
  | x :: xs => do
    let r ← set_namespaces M x
    let rs ← nsList M xs
    .ok (r :: rs)

/-- The item loop of `__set_namespaces`, mirroring the source's two separate
conditionals (an `if key == "@id"` assignment followed by the
`if key == "@type"`/`elif` chain). -/
def nsFields (M : LabelMaps) : List (String × Json) → Dict → Except PyErr Json
  | [], tmp => .ok (.obj tmp)
  | (key, value) :: rest, tmp => do
    let tmp1 := if key == "@id" then dinsert tmp key value else tmp
    if key == "@type" then do
      let r ← get_class_by_label M value value
      nsFields M rest (dinsert tmp1 "@type" r)
    else
      match value with
      | .arr xs => do
        let k ← resolveKey M key key
        let r ← set_namespaces M (.arr xs)
        nsFields M rest (dinsert tmp1 k r)
      | _ =>
        if key == "@value" then .ok (.obj [("@value", value)])
        else if key != "@type" && key != "@id" then do
          let k ← resolveKey M key key
          nsFields M rest (dinsert tmp1 k value)
        else nsFields M rest tmp1
end

/-- `__apply_namespaces`: `self.classList = __set_namespaces(self.classList)`
(the list branch maps the descriptors element-wise). -/
def apply_namespaces (M : LabelMaps) (classList : List Json) :
    Except PyErr (List Json) :=
  nsList M classList

/-- Run-scoped state of `__apply_uuids`: the `gen_uuid` stream position and
the non-local `idMap` from interim to final identifier (insertion-ordered). -/
structure IdState where
  uuidCounter : Nat
  idMap : List (String × String)

/-- The core of the `@id` branch of `__set_uuid` (lines 461-467): consume a
fresh token, and if the interim identifier is not yet in `idMap`, map it to
itself when it already starts with `pref ++ ":"`, else to the namespace
followed by the fresh token; the encounter yields `idMap[value]`. -/
def mint (pref ns : String) (tok : Nat → String) (st : IdState) (v : String) :
    IdState × String :=
  let u := tok st.uuidCounter
  let st1 : IdState := { st with uuidCounter := st.uuidCounter + 1 }
  match dlookup st1.idMap v with
  | some f => (st1, f)
  | none =>
    let f := if pyStartsWith v (pref ++ ":") then v else ns ++ u
    ({ st1 with idMap := st1.idMap ++ [(v, f)] }, f)

/-- In-place value overwrite for an existing key (`iterable[k] = v` guarded by
a membership check). -/
def replaceVal (fs : Dict) (k : String) (v : Json) : Dict :=
  fs.map (fun p => if p.1 == k then (k, v) else p)

mutual
/-- `__set_uuid`: dict nodes process their items in order (see `suFields`),
list nodes recurse per element with parent key `None`, anything else is left
alone (the Python function only mutates containers).  The `fuel` argument is
an embedding artifact as in `fill_class_map`; overwriting an entry's value
with a string (the label rewrite) never increases a node's weight, so fuel
above the weight again behaves like the unbounded Python recursion. -/
def set_uuid (fuel : Nat) (M : LabelMaps) (ignEnt : List Json)
    (pref ns : String) (tok : Nat → String) (st : IdState) (j : Json)
    (parentKey : Json) : Except PyErr (IdState × Json) :=
  match fuel with
  | 0 => .error .fuelExhausted
  | fuel + 1 =>
    match j with
    | .obj fs => do
      let (st', fs') ← suFields fuel M ignEnt pref ns tok st parentKey [] fs
      .ok (st', .obj fs')
    | .arr xs => do
      let (st', xs') ← suList fuel M ignEnt pref ns tok st xs
      .ok (st', .arr xs')
    | _ => .ok (st, j)

def suList (fuel : Nat) (M : LabelMaps) (ignEnt : List Json) (pref ns : String)
    (tok : Nat → String) (st : IdState) (xs : List Json) :
    Except PyErr (IdState × List Json) :=
  match fuel with
  | 0 => .error .fuelExhausted
  | fuel + 1 =>
    match xs with
    | [] => .ok (st, [])
    | x :: xs => do
      let (st1, x') ← set_uuid fuel M ignEnt pref ns tok st x .null
      let (st2, xs') ← suList fuel M ignEnt pref ns tok st1 xs
      .ok (st2, x' :: xs')

/-- The item loop of `__set_uuid` over a dict being mutated in place: `acc`
holds the already-visited items, `rest` the ones still to visit.  On an `@id`
item whose parent key is not in the ignore-entity list, the identifier is
minted (`mint`) and written back; when the dict carries the resolved label
key, that entry is overwritten (wherever it sits, visited or not) with the
synthesized `f"{shortid} {labelAppendix}"` display label.  An `@id` whose
parent key IS ignored falls through to the recursion cases like every other
item. -/
def suFields (fuel : Nat) (M : LabelMaps) (ignEnt : List Json)
    (pref ns : String) (tok : Nat → String) (st : IdState) (parentKey : Json)
    (acc : Dict) (rest : Dict) : Except PyErr (IdState × Dict) :=
  match fuel with
  | 0 => .error .fuelExhausted
  | fuel + 1 =>
    match rest with
    | [] => .ok (st, acc)
    | (key, value) :: rest => do
      if key == "@id" && !(ignEnt.contains parentKey) then
        match value with
        | .str v => do
          let (st1, f) := mint pref ns tok st v
          let labelKey ← resolveKey M "label" rdfsLabel
          let cur := acc ++ [("@id", Json.str f)] ++ rest
          if dcontains cur labelKey then
            let appendix : Json := (dlookup cur rdfsLabel).getD (.str v)
            let shortid := pyTake (pyReplace f ns "") 6
            let newLabel := Json.str (shortid ++ " " ++ pyStr appendix)
            let curEntry : String × Json :=
              if labelKey == "@id" then ("@id", newLabel) else ("@id", Json.str f)
            suFields fuel M ignEnt pref ns tok st1 parentKey
              (replaceVal acc labelKey newLabel ++ [curEntry])
              (replaceVal rest labelKey newLabel)
          else
            suFields fuel M ignEnt pref ns tok st1 parentKey
              (acc ++ [("@id", Json.str f)]) rest
        | .arr _ => .error .typeError
        | .obj _ => .error .typeError
        | _ => .error .attributeError
      else
        match value with
        | .arr xs => do
          let (st1, v') ← set_uuid fuel M ignEnt pref ns tok st (.arr xs) (.str key)
          suFields fuel M ignEnt pref ns tok st1 parentKey (acc ++ [(key, v')]) rest
        | .obj vfs => do
          let (st1, v') ← set_uuid fuel M ignEnt pref ns tok st (.obj vfs) (.str key)
          suFields fuel M ignEnt pref ns tok st1 parentKey (acc ++ [(key, v')]) rest
        | _ =>
          suFields fuel M ignEnt pref ns tok st parentKey
            (acc ++ [(key, value)]) rest
end

/-- `__apply_uuids`: assign final identifiers over the whole descriptor list
(from a fresh identity state), then attach the `@context` to every
(dictionary) descriptor. -/
def apply_uuids (M : LabelMaps) (ignEnt : List Json) (pref ns : String)
    (tok : Nat → String) (context : Json) (classList : List Json) :
    Except PyErr (List Json) := do
  let (_, l) ← suList (lweight classList + 2) M ignEnt pref ns tok ⟨0, []⟩
    classList
  l.mapM (fun e =>
    match e with
    | .obj fs => .ok (Json.obj (dinsert fs "@context" context))
    | _ => .error .typeError)

/-- `Mapper.map` without the external graph-store stages (ontology parsing is
abstracted into `M`, and the final Turtle serialization is out of scope): the
composition of the four core passes. -/
def mapper_map (M : LabelMaps) (context : Json) (pref ns : String)
    (ign : List String) (tok : Nat → String) (canon : Json) :
    Except PyErr (List Json) := do
  let ignEnt ← create_entity_instation_entity_list M ign
  let classList ← create_jsonld_instances M ign canon
  let classList ← apply_namespaces M classList
  apply_uuids M ignEnt pref ns tok context classList

/-! ## Properties of the Label Resolver -/

/-- Characterization of `__get_class_by_label` on string labels: the code's
cascade of `if label in map` tests agrees with the first-hit scan over the ten
maps in the spec's order, followed by the not-found policy. -/
theorem gcbl_str_spec (M : LabelMaps) (s : String) (d : Json) :
    get_class_by_label M (.str s) d =
      match resolveSpecOrder M s with
      | some c => .ok (.str c)
      | none => if falsy d then .error (.labelNotFound (.str s)) else .ok d := by
  cases h1 : M.altlabelmaps "en" s with
  | some c => simp [get_class_by_label, resolveSpecOrder, List.findSome?_cons, h1]
  | none =>
  cases h2 : M.altlabelmaps "en-us" s with
  | some c =>
    simp [get_class_by_label, resolveSpecOrder, List.findSome?_cons, h1, h2]
  | none =>
  cases h3 : M.altlabelmaps "en-gb" s with
  | some c =>
    simp [get_class_by_label, resolveSpecOrder, List.findSome?_cons, h1, h2, h3]
  | none =>
  cases h4 : M.altlabelmaps "nolang" s with
  | some c =>
    simp [get_class_by_label, resolveSpecOrder, List.findSome?_cons, h1, h2, h3,
      h4]
  | none =>
  cases h5 : M.labelmaps "en" s with
  | some c =>
    simp [get_class_by_label, resolveSpecOrder, List.findSome?_cons, h1, h2, h3,
      h4, h5]
  | none =>
  cases h6 : M.labelmaps "en-us" s with
  | some c =>
    simp [get_class_by_label, resolveSpecOrder, List.findSome?_cons, h1, h2, h3,
      h4, h5, h6]
  | none =>
  cases h7 : M.labelmaps "en-gb" s with
  | some c =>
    simp [get_class_by_label, resolveSpecOrder, List.findSome?_cons, h1, h2, h3,
      h4, h5, h6, h7]
  | none =>
  cases h8 : M.labelmaps "nolang" s with
  | some c =>
    simp [get_class_by_label, resolveSpecOrder, List.findSome?_cons, h1, h2, h3,
      h4, h5, h6, h7, h8]
  | none =>
  cases h9 : M.altlabelmaps "de" s with
  | some c =>
    simp [get_class_by_label, resolveSpecOrder, List.findSome?_cons, h1, h2, h3,
      h4, h5, h6, h7, h8, h9]
  | none =>
  cases h10 : M.labelmaps "de" s with
  | some c =>
    simp [get_class_by_label, resolveSpecOrder, List.findSome?_cons, h1, h2, h3,
      h4, h5, h6, h7, h8, h9, h10]
  | none =>
    simp [get_class_by_label, resolveSpecOrder, List.findSome?_cons, h1, h2, h3,
      h4, h5, h6, h7, h8, h9, h10]

/-- A string-label resolution with a non-empty string default always succeeds
and always yields a string. -/
theorem gcbl_str_ok (M : LabelMaps) (s d : String) (hd : d ≠ "") :
    ∃ c, get_class_by_label M (.str s) (.str d) = .ok (.str c) := by
  rw [gcbl_str_spec]
  cases h : resolveSpecOrder M s with
  | some c => exact ⟨c, rfl⟩
  | none =>
    refine ⟨d, ?_⟩
    simp [falsy, hd]

/-- `resolveKey` (a resolver call with string label and non-empty string
default, as the source performs for dictionary keys) always succeeds. -/
theorem resolveKey_ok (M : LabelMaps) (s d : String) (hd : d ≠ "") :
    ∃ c, resolveKey M s d = .ok c := by
  obtain ⟨c, hc⟩ := gcbl_str_ok M s d hd
  refine ⟨c, ?_⟩
  simp only [resolveKey, hc]
  rfl

/-- **C1**: the spec requires an operator-controlled strict mode (the `RAISE`
environment variable, promised by the class docstring) under which a label
found in no label map fails the whole mapping run even when a default was
supplied.  The code never reads that environment variable: `RAISE` does not
occur in the body of `__get_class_by_label` (accordingly the embedding has no
environment input at all), and a resolution miss with a truthy default
returns the default.  This theorem evaluates the resolver at the failing
input: label `"UnknownWidget"` in no map, default supplied — the call
succeeds with the default instead of raising. -/
theorem C1_strict_mode_never_fails_with_default :
    get_class_by_label emptyLabelMaps (.str "UnknownWidget")
      (.str "UnknownWidget") = .ok (.str "UnknownWidget") := rfl

/-- **C5** (counterexample): the claim states that a label that is not a
scalar string yields the default immediately.  An integer label is not a
scalar string, yet with the (falsy) default `0` — exactly the call shape
`__get_class_by_label(value, value)` used for ignore-listed scalar values —
the resolver raises instead of returning the default: only list labels
short-circuit. -/
theorem C5_counterexample :
    get_class_by_label emptyLabelMaps (.int 0) (.int 0)
      = .error (.labelNotFound (.int 0)) := rfl

/-- **C5** (amended): a *list* label returns the default immediately; a
*string* label is searched through the ten maps in exactly the claimed order
(`resolveSpecOrder` spells that order out), the result being the identifier
of the first map containing the label; a label of any other kind matches no
map and falls through to the not-found policy instead of returning the
default immediately. -/
theorem C5_resolution_order (M : LabelMaps) (d : Json) :
    (∀ xs, get_class_by_label M (.arr xs) d = .ok d) ∧
    (∀ s c, resolveSpecOrder M s = some c →
      get_class_by_label M (.str s) d = .ok (.str c)) ∧
    (∀ l, scalarJson l = true → (∀ s, l ≠ .str s) →
      get_class_by_label M l d =
        if falsy d then .error (.labelNotFound l) else .ok d) := by
  refine ⟨fun xs => rfl, fun s c h => ?_, fun l hsc hstr => ?_⟩
  · rw [gcbl_str_spec, h]
  · cases l with
    | null => rfl
    | bool b => rfl
    | int n => rfl
    | str s => exact absurd rfl (hstr s)
    | arr xs => simp [scalarJson] at hsc
    | obj fs => simp [scalarJson] at hsc

/-- Witness for `C5_resolution_order`: with a map carrying an `en` primary
label and a `de` alternate label for the same text, the `en` primary label
wins (position 5 beats position 9), and the first-hit scan agrees with the
resolver. -/
def c5MapsW : LabelMaps :=
  ⟨fun lang l => if lang == "en" && l == "Kraft" then some "ex:Force" else none,
   fun lang l => if lang == "de" && l == "Kraft" then some "ex:Kraft" else none⟩

theorem C5_resolution_order_witness :
    get_class_by_label c5MapsW (.str "Kraft") (.str "Kraft")
      = .ok (.str "ex:Force") :=
  (C5_resolution_order c5MapsW (.str "Kraft")).2.1 "Kraft" "ex:Force" rfl

/-- **C6** (counterexample): the claim states that whenever the label is found
in no label map and the default is falsy or absent, the call raises an error
identifying the label.  A list label is found in no label map (the maps hold
label text), the default `None` is absent — and the call returns the absent
default without raising. -/
theorem C6_counterexample :
    get_class_by_label emptyLabelMaps (.arr []) .null = .ok .null := rfl

/-- **C6** (amended): for every resolution call with a *non-list* (and
non-dict) label that no label map contains: a truthy default is returned
unchanged and no error is raised; a falsy or absent default raises the error
naming the offending label.  (A list label returns the default even when the
default is falsy or absent.) -/
theorem C6_not_found_policy (M : LabelMaps) (label d : Json)
    (hscalar : scalarJson label = true) (hmiss : noMapHit M label) :
    get_class_by_label M label d =
      if falsy d then .error (.labelNotFound label) else .ok d := by
  cases label with
  | null => rfl
  | bool b => rfl
  | int n => rfl
  | str s =>
    rw [gcbl_str_spec]
    unfold noMapHit at hmiss
    rw [hmiss]
  | arr xs => simp [scalarJson] at hscalar
  | obj fs => simp [scalarJson] at hscalar

theorem C6_not_found_policy_witness :
    get_class_by_label emptyLabelMaps (.str "zz") (.str "")
      = .error (.labelNotFound (.str "zz")) :=
  (C6_not_found_policy emptyLabelMaps (.str "zz") (.str "") rfl rfl).trans rfl

/-! ## Properties of the Identity Assigner -/

theorem dlookup_nil (k : String) : dlookup ([] : List (String × α)) k = none := rfl

theorem dlookup_cons (p : String × α) (l : List (String × α)) (k : String) :
    dlookup (p :: l) k = if p.1 == k then some p.2 else dlookup l k := by
  by_cases h : (p.1 == k) = true <;> simp [dlookup, List.find?_cons, h]

theorem dlookup_append (a b : List (String × α)) (k : String) :
    dlookup (a ++ b) k = (dlookup a k).orElse (fun _ => dlookup b k) := by
  induction a with
  | nil => simp [dlookup]
  | cons p a ih =>
    by_cases h : (p.1 == k) = true <;>
      simp [dlookup_cons, h, List.cons_append, ih]

theorem dlookup_append_single (m : List (String × α)) (k : String) (x : α)
    (k' : String) :
    dlookup (m ++ [(k, x)]) k' =
      match dlookup m k' with
      | some y => some y
      | none => if k == k' then some x else none := by
  rw [dlookup_append]
  cases dlookup m k' <;> simp [dlookup_cons, dlookup_nil]

/-- Left-cancellation of string concatenation. -/
theorem string_append_left_cancel {a b c : String} (h : a ++ b = a ++ c) :
    b = c := by
  have h2 := congrArg String.data h
  simp only [String.data_append, List.append_cancel_left_eq] at h2
  cases b; cases c; exact congrArg String.mk h2

/-- The sequence of `@id` encounters performed by one `__apply_uuids` run, as
a fold of the `mint` step, returning the final identity state together with
the final identifier produced at each encounter. -/
def mintRun (pref ns : String) (tok : Nat → String) (st : IdState) :
    List String → IdState × List String
  | [] => (st, [])
  | v :: vs =>
    let r1 := mint pref ns tok st v
    let r2 := mintRun pref ns tok r1.1 vs
    (r2.1, r1.2 :: r2.2)

theorem mint_lookup_self (pref ns : String) (tok : Nat → String) (st : IdState)
    (v : String) :
    dlookup (mint pref ns tok st v).1.idMap v = some (mint pref ns tok st v).2 := by
  unfold mint
  cases h : dlookup st.idMap v with
  | some f => simp [h]
  | none => simp [h, dlookup_append_single]

theorem mint_lookup_mono (pref ns : String) (tok : Nat → String) (st : IdState)
    (w v f : String) (h : dlookup st.idMap v = some f) :
    dlookup (mint pref ns tok st w).1.idMap v = some f := by
  unfold mint
  cases hw : dlookup st.idMap w with
  | some g => simpa [hw] using h
  | none => simp [hw, dlookup_append_single, h]

theorem mintRun_lookup_mono (pref ns : String) (tok : Nat → String) :
    ∀ (vs : List String) (st : IdState) (v f : String),
      dlookup st.idMap v = some f →
      dlookup (mintRun pref ns tok st vs).1.idMap v = some f := by
  intro vs
  induction vs with
  | nil => intro st v f h; simpa [mintRun] using h
  | cons w vs ih =>
    intro st v f h
    simp only [mintRun]
    exact ih _ v f (mint_lookup_mono pref ns tok st w v f h)

/-- Every encounter's output is the final map's value at that interim
identifier (entries are never overwritten once created). -/
theorem mintRun_get? (pref ns : String) (tok : Nat → String) :
    ∀ (vs : List String) (st : IdState) (i : Nat),
      (mintRun pref ns tok st vs).2.get? i
        = (vs.get? i).bind
            (fun v => dlookup (mintRun pref ns tok st vs).1.idMap v) := by
  intro vs
  induction vs with
  | nil => intro st i; simp [mintRun]
  | cons v vs ih =>
    intro st i
    cases i with
    | zero =>
      simp only [mintRun, List.get?_cons_zero, Option.some_bind]
      exact (mintRun_lookup_mono pref ns tok vs _ v _
        (mint_lookup_self pref ns tok st v)).symm
    | succ i =>
      simp only [mintRun, List.get?_cons_succ]
      exact ih _ i

/-- Invariant of the identity state: pass-through entries are fixed points,
minted entries carry a token index below the counter, and minted finals are
pairwise distinct for distinct interim identifiers. -/
def MintInv (pref ns : String) (tok : Nat → String) (st : IdState) : Prop :=
  (∀ v f, dlookup st.idMap v = some f → pyStartsWith v (pref ++ ":") = true →
      f = v) ∧
  (∀ v f, dlookup st.idMap v = some f → pyStartsWith v (pref ++ ":") = false →
      ∃ i, i < st.uuidCounter ∧ f = ns ++ tok i) ∧
  (∀ v w fv fw, dlookup st.idMap v = some fv → dlookup st.idMap w = some fw →
      pyStartsWith v (pref ++ ":") = false → pyStartsWith w (pref ++ ":") = false →
      v ≠ w → fv ≠ fw)

theorem mintInv_init (pref ns : String) (tok : Nat → String) (c0 : Nat) :
    MintInv pref ns tok ⟨c0, []⟩ := by
  refine ⟨fun v f h _ => by simp [dlookup] at h,
    fun v f h _ => by simp [dlookup] at h,
    fun v w fv fw h _ _ _ _ => by simp [dlookup] at h⟩

theorem dlookup_snoc_cases {α : Type} {m : List (String × α)} {k k' : String}
    {x y : α} (h : dlookup (m ++ [(k, x)]) k' = some y) :
    dlookup m k' = some y ∨ (dlookup m k' = none ∧ k = k' ∧ x = y) := by
  rw [dlookup_append] at h
  cases hm : dlookup m k' with
  | some z =>
    rw [hm] at h
    simp only [Option.orElse] at h
    left
    exact h
  | none =>
    rw [hm] at h
    simp only [Option.orElse] at h
    right
    rw [dlookup_cons] at h
    by_cases hk : (k == k') = true
    · simp only [hk, if_true] at h
      exact ⟨rfl, by simpa using hk, by simpa using h⟩
    · simp [hk, dlookup] at h

theorem mint_eq_hit {pref ns : String} {tok : Nat → String} {st : IdState}
    {v f : String} (h : dlookup st.idMap v = some f) :
    mint pref ns tok st v = (⟨st.uuidCounter + 1, st.idMap⟩, f) := by
  unfold mint
  simp [h]

theorem mint_eq_miss {pref ns : String} {tok : Nat → String} {st : IdState}
    {v : String} (h : dlookup st.idMap v = none) :
    mint pref ns tok st v =
      (⟨st.uuidCounter + 1,
        st.idMap ++ [(v, if pyStartsWith v (pref ++ ":") then v
                         else ns ++ tok st.uuidCounter)]⟩,
       if pyStartsWith v (pref ++ ":") then v else ns ++ tok st.uuidCounter) := by
  unfold mint
  simp [h]

theorem mint_preserves_inv (pref ns : String) (tok : Nat → String)
    (hinj : Function.Injective tok) (st : IdState) (v : String)
    (h : MintInv pref ns tok st) :
    MintInv pref ns tok (mint pref ns tok st v).1 := by
  obtain ⟨h1, h2, h3⟩ := h
  cases hv : dlookup st.idMap v with
  | some f =>
    rw [mint_eq_hit hv]
    refine ⟨h1, fun w g hw hsw => ?_, h3⟩
    obtain ⟨i, hi, hg⟩ := h2 w g hw hsw
    exact ⟨i, by simpa using Nat.lt_succ_of_lt hi, hg⟩
  | none =>
    rw [mint_eq_miss hv]
    refine ⟨?_, ?_, ?_⟩
    · intro w g hw hsw
      rcases dlookup_snoc_cases hw with hold | ⟨_, hvw, hfg⟩
      · exact h1 w g hold hsw
      · subst hvw
        rw [← hfg]
        simp [hsw]
    · intro w g hw hsw
      rcases dlookup_snoc_cases hw with hold | ⟨_, hvw, hfg⟩
      · obtain ⟨i, hi, hg⟩ := h2 w g hold hsw
        exact ⟨i, by simpa using Nat.lt_succ_of_lt hi, hg⟩
      · subst hvw
        refine ⟨st.uuidCounter, by simpa using Nat.lt_succ_self st.uuidCounter, ?_⟩
        rw [← hfg]
        simp [hsw]
    · intro w w' fw fw' hw hw' hsw hsw' hne hc
      rcases dlookup_snoc_cases hw with hold | ⟨_, hvw, hfg⟩
      · rcases dlookup_snoc_cases hw' with hold' | ⟨_, hvw', hfg'⟩
        · exact h3 w w' fw fw' hold hold' hsw hsw' hne hc
        · subst hvw'
          obtain ⟨i, hi, hg⟩ := h2 w fw hold hsw
          rw [← hfg'] at hc
          simp only [hsw', if_false, Bool.false_eq_true] at hc
          rw [hg] at hc
          have := hinj (string_append_left_cancel hc)
          omega
      · subst hvw
        rcases dlookup_snoc_cases hw' with hold' | ⟨_, hvw', hfg'⟩
        · obtain ⟨i, hi, hg⟩ := h2 w' fw' hold' hsw'
          rw [← hfg] at hc
          simp only [hsw, if_false, Bool.false_eq_true] at hc
          rw [hg] at hc
          have := hinj (string_append_left_cancel hc.symm)
          omega
        · exact hne hvw'

theorem mintRun_preserves_inv (pref ns : String) (tok : Nat → String)
    (hinj : Function.Injective tok) :
    ∀ (vs : List String) (st : IdState), MintInv pref ns tok st →
      MintInv pref ns tok (mintRun pref ns tok st vs).1 := by
  intro vs
  induction vs with
  | nil => intro st h; simpa [mintRun] using h
  | cons v vs ih =>
    intro st h
    simp only [mintRun]
    exact ih _ (mint_preserves_inv pref ns tok hinj st v h)

/-- **C4**: within one run, the interim-to-final identifier map built by the
`@id` branch of `__set_uuid` (the `mint` step, folded over the run's sequence
of `@id` encounters by `mintRun`) is a stable injective function — provided
the fresh-token source never repeats a token, which models `uuid4`:
(1) the same interim identifier yields the same final identifier at every
encounter; (2) two distinct interim identifiers that do not start with
`targetPrefix ++ ":"` never receive the same final identifier; (3) an interim
identifier that already starts with `targetPrefix ++ ":"` maps to itself
unchanged; (4) any other interim identifier maps to `targetNamespace`
followed by a freshly generated token. -/
theorem C4_identity_map_stable_injective (pref ns : String)
    (tok : Nat → String) (hinj : Function.Injective tok) (c0 : Nat)
    (vs : List String) :
    (∀ i j, vs.get? i = vs.get? j →
      (mintRun pref ns tok ⟨c0, []⟩ vs).2.get? i
        = (mintRun pref ns tok ⟨c0, []⟩ vs).2.get? j) ∧
    (∀ v w fv fw,
      dlookup (mintRun pref ns tok ⟨c0, []⟩ vs).1.idMap v = some fv →
      dlookup (mintRun pref ns tok ⟨c0, []⟩ vs).1.idMap w = some fw →
      pyStartsWith v (pref ++ ":") = false → pyStartsWith w (pref ++ ":") = false →
      fv = fw → v = w) ∧
    (∀ v f, dlookup (mintRun pref ns tok ⟨c0, []⟩ vs).1.idMap v = some f →
      pyStartsWith v (pref ++ ":") = true → f = v) ∧
    (∀ v f, dlookup (mintRun pref ns tok ⟨c0, []⟩ vs).1.idMap v = some f →
      pyStartsWith v (pref ++ ":") = false → ∃ i, f = ns ++ tok i) := by
  obtain ⟨h1, h2, h3⟩ :=
    mintRun_preserves_inv pref ns tok hinj vs ⟨c0, []⟩
      (mintInv_init pref ns tok c0)
  refine ⟨?_, ?_, h1, ?_⟩
  · intro i j hij
    rw [mintRun_get?, mintRun_get?, hij]
  · intro v w fv fw hv hw hsv hsw hfe
    by_contra hne
    exact h3 v w fv fw hv hw hsv hsw hne hfe
  · intro v f hv hsv
    obtain ⟨i, _, hg⟩ := h2 v f hv hsv
    exact ⟨i, hg⟩

/-- Token stream used by the witness: injective because the produced strings
have pairwise different lengths. -/
def wtok (n : Nat) : String := String.mk (List.replicate n 'u')

theorem wtok_inj : Function.Injective wtok := by
  intro a b h
  have h2 : List.replicate a 'u' = List.replicate b 'u' := congrArg String.data h
  simpa using congrArg List.length h2

theorem C4_identity_map_stable_injective_witness :
    (mintRun "entity" "http://e/" wtok ⟨0, []⟩ ["A_1", "entity:x", "A_1"]).2.get? 0
      = (mintRun "entity" "http://e/" wtok ⟨0, []⟩
          ["A_1", "entity:x", "A_1"]).2.get? 2 :=
  (C4_identity_map_stable_injective "entity" "http://e/" wtok wtok_inj 0
    ["A_1", "entity:x", "A_1"]).1 0 2 rfl

/-! ## Properties of the Structural Mapper's entity table -/

theorem dcontains_cons (p : String × α) (l : List (String × α)) (k : String) :
    dcontains (p :: l) k = ((p.1 == k) || dcontains l k) := by
  by_cases h : (p.1 == k) = true <;> simp [dcontains, dlookup_cons, h]

theorem dlookup_map_replace_self (k : String) (v : α) :
    ∀ d : List (String × α), dcontains d k = true →
      dlookup (d.map (fun p => if p.1 == k then (k, v) else p)) k = some v := by
  intro d
  induction d with
  | nil => intro h; simp [dcontains, dlookup] at h
  | cons p l ih =>
    intro h
    rw [dcontains_cons] at h
    simp only [beq_iff_eq] at ih
    by_cases hp : p.1 = k
    · simp [List.map_cons, hp, dlookup_cons]
    · have hpb : (p.1 == k) = false := by simp [hp]
      simp only [hpb, Bool.false_or] at h
      simp [List.map_cons, hp, hpb, dlookup_cons, ih h]

theorem dlookup_map_replace_ne (k k' : String) (v : α) (hne : k' ≠ k) :
    ∀ d : List (String × α),
      dlookup (d.map (fun p => if p.1 == k then (k, v) else p)) k'
        = dlookup d k' := by
  intro d
  induction d with
  | nil => simp
  | cons p l ih =>
    simp only [beq_iff_eq] at ih
    by_cases hp : p.1 = k
    · have hp' : (p.1 == k') = false := by simp [hp, Ne.symm hne]
      simp [List.map_cons, hp, dlookup_cons, hp', ih,
        show (k == k') = false by simp [Ne.symm hne], Ne.symm hne]
    · simp [List.map_cons, hp, dlookup_cons, ih]

theorem dlookup_dinsert_self (d : List (String × α)) (k : String) (v : α) :
    dlookup (dinsert d k v) k = some v := by
  unfold dinsert
  by_cases h : dcontains d k = true
  · simp only [h, if_true]
    exact dlookup_map_replace_self k v d h
  · simp only [h, if_false, Bool.false_eq_true]
    rw [dlookup_append_single]
    have hn : dlookup d k = none := by
      cases hh : dlookup d k with
      | none => rfl
      | some y => exact absurd (by simp [dcontains, hh]) h
    rw [hn]
    simp

theorem dlookup_dinsert_ne (d : List (String × α)) (k k' : String) (v : α)
    (hne : k' ≠ k) : dlookup (dinsert d k v) k' = dlookup d k' := by
  unfold dinsert
  by_cases h : dcontains d k = true
  · simp only [h, if_true]
    exact dlookup_map_replace_ne k k' v hne d
  · simp only [h, if_false, Bool.false_eq_true]
    rw [dlookup_append_single]
    cases hh : dlookup d k' with
    | none => simp [show (k == k') = false by simp [Ne.symm hne]]
    | some y => simp

theorem dcontains_dinsert_self (d : List (String × α)) (k : String) (v : α) :
    dcontains (dinsert d k v) k = true := by
  simp [dcontains, dlookup_dinsert_self]

theorem dcontains_dinsert_mono (d : List (String × α)) (k k' : String) (v : α)
    (h : dcontains d k' = true) : dcontains (dinsert d k v) k' = true := by
  by_cases he : k' = k
  · subst he
    exact dcontains_dinsert_self d k' v
  · simpa [dcontains, dlookup_dinsert_ne d k k' v he] using h

theorem dcontains_dupdate_left :
    ∀ (e d : List (String × α)) (k : String), dcontains d k = true →
      dcontains (dupdate d e) k = true := by
  intro e
  induction e with
  | nil => intro d k h; simpa [dupdate] using h
  | cons p e ih =>
    intro d k h
    simp only [dupdate, List.foldl_cons]
    exact ih (dinsert d p.1 p.2) k (dcontains_dinsert_mono d p.1 k p.2 h)

theorem dcontains_dupdate_right :
    ∀ (e d : List (String × α)) (k : String), dcontains e k = true →
      dcontains (dupdate d e) k = true := by
  intro e
  induction e with
  | nil => intro d k h; simp [dcontains, dlookup] at h
  | cons p e ih =>
    intro d k h
    rw [dcontains_cons] at h
    simp only [dupdate, List.foldl_cons]
    by_cases hp : (p.1 == k) = true
    · have : p.1 = k := by simpa using hp
      subst this
      exact dcontains_dupdate_left e (dinsert d p.1 p.2) p.1
        (dcontains_dinsert_self d p.1 p.2)
    · simp only [hp, Bool.false_or] at h
      exact ih (dinsert d p.1 p.2) k h

/-- **C3** (amended): the `classMap` merge step never removes a key from the
stored descriptor — every key of the stored descriptor survives the step, a
first occurrence is stored as-is, and *when the update fires* (the later
occurrence has strictly more keys) the merged descriptor keeps every stored
key and gains every key of the later occurrence.  (The claim's unconditional
superset property fails: a later occurrence with no more keys than the stored
descriptor is discarded whole, see `C3_counterexample`.) -/
theorem C3_merge_additive (cm : List (String × Dict)) (id0 : String)
    (ld : Dict) :
    (∀ old k, dlookup cm id0 = some old → dcontains old k = true →
      ∃ d, dlookup (classMapStep cm id0 ld) id0 = some d ∧
        dcontains d k = true) ∧
    (∀ old, dlookup cm id0 = some old → ld.length > old.length →
      dlookup (classMapStep cm id0 ld) id0 = some (dupdate old ld) ∧
      (∀ k, dcontains old k = true → dcontains (dupdate old ld) k = true) ∧
      (∀ k, dcontains ld k = true → dcontains (dupdate old ld) k = true)) ∧
    (dlookup cm id0 = none → dlookup (classMapStep cm id0 ld) id0 = some ld) := by
  refine ⟨?_, ?_, ?_⟩
  · intro old k hold hk
    unfold classMapStep
    rw [hold]
    by_cases hlen : ld.length > old.length
    · simp only [hlen, if_true]
      exact ⟨dupdate old ld, dlookup_dinsert_self cm id0 (dupdate old ld),
        dcontains_dupdate_left ld old k hk⟩
    · simp only [hlen, if_false]
      exact ⟨old, hold, hk⟩
  · intro old hold hlen
    unfold classMapStep
    rw [hold]
    simp only [hlen, if_true]
    exact ⟨dlookup_dinsert_self cm id0 (dupdate old ld),
      fun k hk => dcontains_dupdate_left ld old k hk,
      fun k hk => dcontains_dupdate_right ld old k hk⟩
  · intro hnone
    unfold classMapStep
    rw [hnone]
    exact dlookup_dinsert_self cm id0 ld

theorem C3_merge_additive_witness :
    dlookup (classMapStep [] "Person_1" [("@id", Json.str "Person_1")])
      "Person_1" = some [("@id", Json.str "Person_1")] :=
  (C3_merge_additive [] "Person_1" [("@id", Json.str "Person_1")]).2.2 rfl

/-- The two-occurrence canonical document of the C3 counterexample: the same
interim identifier `Person_1` is encountered twice; the second occurrence
carries the predicate key `city`, which the first does not have. -/
def canonC3 : Json := .arr [
  .obj [("Person", .obj [("hasIdentifier", .str "pid"), ("pid", .str "1"),
                         ("name", .str "Ada"), ("age", .int 30)])],
  .obj [("Person", .obj [("hasIdentifier", .str "pid"), ("pid", .str "1"),
                         ("city", .str "HB")])]]

/-- **C3** (counterexample): running the structural mapper over `canonC3`, the
final descriptor stored under `Person_1` does *not* contain the second
occurrence's predicate key `city` (the second descriptor has 5 keys, the
stored one 6, so the merge never fires and the occurrence is dropped whole) —
its key set is not a superset of the second occurrence's key set, refuting
the claim as stated. -/
theorem C3_counterexample :
    dcontains [("hasIdentifier", Json.str "pid"), ("pid", Json.str "1"),
      ("city", Json.str "HB")] "city" = true ∧
    (match fill_class_map (jweight canonC3 + 2) emptyLabelMaps [] ⟨0, []⟩ canonC3 false with
     | .ok (st, _) => (dlookup st.classMap "Person_1").map
         (fun d => (dcontains d "city", dkeys d))
     | .error _ => none)
    = some (false, ["@type", "@id", rdfsLabel, "pid", "name", "age"]) :=
  ⟨rfl, rfl⟩

/-! ## Properties of the Structural Mapper's traversal -/

theorem isLower_not_isUpper (c : Char) (h : c.isLower = true) :
    c.isUpper = false := by
  simp [Char.isLower] at h
  simp [Char.isUpper]
  intro h2
  have h1 := h.1
  simp only [UInt32.le_def, UInt32.lt_def] at *
  exact lt_of_lt_of_le (show (90 : UInt32).val < (97 : UInt32).val by decide) h1

theorem except_bind_ok (x : α) (f : α → Except ε β) :
    (Except.ok x >>= f) = f x := rfl

theorem except_bind_err (e : ε) (f : α → Except ε β) :
    ((Except.error e : Except ε α) >>= f) = Except.error e := rfl

mutual
/-- Whether the string `s` occurs anywhere in a value: as a dictionary key or
as (the text of) a string value. -/
def jmentions (s : String) : Json → Bool
  | .str t => t == s
  | .arr xs => lmentions s xs
  | .obj fs => fmentions s fs
  | _ => false

def lmentions (s : String) : List Json → Bool
  | [] => false
  | x :: xs => jmentions s x || lmentions s xs

def fmentions (s : String) : List (String × Json) → Bool
  | [] => false
  | (k, v) :: fs => k == s || jmentions s v || fmentions s fs
end

/-- A canonical document with a lowercase key (`addr`) whose value is an
object carrying the pair `city ↦ HB`. -/
def canonC2 : Json := .obj [("Person",
  .obj [("hasIdentifier", .str "pid"), ("pid", .str "7"),
        ("addr", .obj [("city", .str "HB")])])]

/-- **C2** (counterexample): the claim says the mapper recurses into the
value of a lowercase-keyed object and preserves its key/value pairs in the
mapped output.  Running the structural mapper on `canonC2`: the position gets
only the reference `{"@id": "addr_sub_1"}`, the entity table gains no entry
for the nested object, and the pair `city ↦ HB` — present in the input — is
mentioned nowhere in the entire output (entity table or skeleton): the
contents of the nested object are dropped, not preserved. -/
theorem C2_counterexample :
    jmentions "city" canonC2 = true ∧
    (match fill_class_map (jweight canonC2 + 2) emptyLabelMaps [] ⟨0, []⟩
        canonC2 false with
     | .ok (st, sk) => some (st.classMap, sk)
     | .error _ => none)
      = some ([("Person_7",
                [("@type", Json.arr [Json.str "default"]),
                 ("@id", Json.str "Person_7"),
                 (rdfsLabel, Json.str "Person"),
                 ("pid", Json.str "7"),
                 ("addr", Json.obj [("@id", Json.str "addr_sub_1")])])],
              Json.obj [("@id", Json.str "Person_7")]) ∧
    (match fill_class_map (jweight canonC2 + 2) emptyLabelMaps [] ⟨0, []⟩
        canonC2 false with
     | .ok (st, sk) =>
        some (st.classMap.any (fun p => fmentions "city" p.2 || fmentions "HB" p.2)
              || jmentions "city" sk || jmentions "HB" sk)
     | .error _ => none) = some false :=
  ⟨rfl, rfl, rfl⟩

/-- Unfolding of the item loop on a single lowercase-keyed object entry: the
produced `tmp` holds exactly the synthesized reference
`{"@id": f"{key}_sub_{counter}"}` — the result does not depend on the
object's contents `vfs` at all, and neither the entity table nor anything
else of the state except the counter changes. -/
theorem fillFields_lower_single (fuel : Nat) (M : LabelMaps)
    (ign : List String) (st : FillState) (lh : Json) (k : String) (vfs : Dict)
    (c : Char) (cs : List Char) (hk : k.data = c :: cs)
    (hlow : c.isLower = true) (hlh : k ≠ "listHandler")
    (hhi : k ≠ "hasIdentifier") :
    fillFields (fuel + 2) M ign st lh [(k, .obj vfs)] []
      = .ok (⟨st.counter + 1, st.classMap⟩,
             [(k, Json.obj [("@id",
               Json.str (k ++ "_sub_" ++ toString (st.counter + 1)))])]) := by
  obtain ⟨c0, hc0⟩ := gcbl_str_ok M k "default" (by decide)
  have hup := isLower_not_isUpper c hlow
  have hlhb : (k == "listHandler") = false := by simp [hlh]
  have hhib : (k == "hasIdentifier") = false := by simp [hhi]
  simp only [fillFields, hlhb, hhib, hc0, except_bind_ok, hk, hlow, hup,
    Bool.false_eq_true, if_false, if_true, dinsert, dcontains, dlookup,
    List.find?, Option.map, Option.isSome, List.nil_append]

/-- **C2** (amended): for every key starting with a lowercase letter whose
value is an object, the mapper synthesizes the fresh sub-identifier
`f"{key}_sub_{counter}"` and records the reference `{"@id": sub-identifier}`
at that tree position; the anonymous structure is never added to the entity
table (the `classMap` is returned unchanged).  It does **not** recurse into
the value: the object's key/value pairs are discarded (the result is the same
for every `vfs`), contrary to the claim's "recurses ... preserved" part —
see `C2_counterexample`. -/
theorem C2_lowercase_nested_structure (fuel : Nat) (M : LabelMaps)
    (ign : List String) (st : FillState) (b : Bool) (k : String) (vfs : Dict)
    (c : Char) (cs : List Char) (hk : k.data = c :: cs)
    (hlow : c.isLower = true) (hlh : k ≠ "listHandler")
    (hhi : k ≠ "hasIdentifier") :
    fill_class_map (fuel + 3) M ign st (.obj [(k, .obj vfs)]) b
      = .ok (⟨st.counter + 1, st.classMap⟩,
             .obj [(k, Json.obj [("@id",
               Json.str (k ++ "_sub_" ++ toString (st.counter + 1)))])]) := by
  have hlhb : (k == "listHandler") = false := by simp [hlh]
  simp only [fill_class_map, dlookup_cons, dlookup_nil, hlhb,
    Bool.false_eq_true, if_false, Option.getD_none,
    fillFields_lower_single fuel M ign st (Json.arr []) k vfs c cs hk hlow
      hlh hhi, except_bind_ok]

theorem C2_lowercase_nested_structure_witness :
    fill_class_map 3 emptyLabelMaps [] ⟨0, []⟩
        (.obj [("addr", .obj [("city", .str "HB")])]) false
      = .ok (⟨1, []⟩, .obj [("addr", .obj [("@id", .str "addr_sub_1")])]) :=
  (C2_lowercase_nested_structure 0 emptyLabelMaps [] ⟨0, []⟩ false "addr"
    [("city", .str "HB")] 'a' ['d', 'd', 'r'] rfl rfl
    (by decide) (by decide)).trans rfl

/-- A key whose first character is uppercase is neither of the two
lowercase-initial special keys. -/
theorem upper_key_ne (k : String) (c : Char) (cs : List Char)
    (hk : k.data = c :: cs) (hup : c.isUpper = true) :
    k ≠ "listHandler" ∧ k ≠ "hasIdentifier" := by
  constructor
  · rintro rfl
    have hc : c = 'l' := by
      have h2 := congrArg List.head? hk
      simpa using h2.symm
    rw [hc] at hup
    simp [Char.isUpper] at hup
  · rintro rfl
    have hc : c = 'h' := by
      have h2 := congrArg List.head? hk
      simpa using h2.symm
    rw [hc] at hup
    simp [Char.isUpper] at hup

/-- The interim-identifier computation never touches the entity table. -/
theorem interimId_classMap (st : FillState) (key : String) (fs : Dict) :
    (interimId st key fs).1.classMap = st.classMap := by
  unfold interimId
  cases dlookup fs "hasIdentifier" with
  | none => rfl
  | some h =>
    cases hp : pyGet fs h <;> simp [hp]

/-- **C8**: for every uppercase-keyed object value — (1) if the value has a
`hasIdentifier` key whose (hashable) value is found by
`value.get(value["hasIdentifier"], value["hasIdentifier"])`, the interim
identifier is `f"{key}_{identifierValue}"` (via Python `str`) and the counter
is untouched; (2) if the value has no `hasIdentifier` key, or (3) the lookup
fails (unhashable identifier value), the interim identifier falls back to
`f"{key}_{counter}"` with the freshly incremented run-local counter; and
(4) when `hasIdentifier` is the value's only key, no entity descriptor is
created (the entity table comes back unchanged) and only the identifier
reference `{"@id": interim}` is recorded at that tree position. -/
theorem C8_interim_identifier (st : FillState) (key : String) :
    (∀ fs h idv, dlookup fs "hasIdentifier" = some h →
      pyGet fs h = some idv →
      interimId st key fs = (st, key ++ "_" ++ pyStr idv)) ∧
    (∀ fs, dlookup fs "hasIdentifier" = none →
      interimId st key fs
        = (⟨st.counter + 1, st.classMap⟩,
           key ++ "_" ++ toString (st.counter + 1))) ∧
    (∀ fs h, dlookup fs "hasIdentifier" = some h → pyGet fs h = none →
      interimId st key fs
        = (⟨st.counter + 1, st.classMap⟩,
           key ++ "_" ++ toString (st.counter + 1))) ∧
    (∀ fuel M ign b w st1 iid c cs, key.data = c :: cs → c.isUpper = true →
      interimId st key [("hasIdentifier", w)] = (st1, iid) →
      fill_class_map (fuel + 3) M ign st
          (.obj [(key, .obj [("hasIdentifier", w)])]) b
        = .ok (st1, .obj [("@id", .str iid)]) ∧
      st1.classMap = st.classMap) := by
  refine ⟨?_, ?_, ?_, ?_⟩
  · intro fs h idv h1 h2
    unfold interimId
    rw [h1]
    simp [h2]
  · intro fs h1
    unfold interimId
    rw [h1]
  · intro fs h h1 h2
    unfold interimId
    rw [h1]
    simp [h2]
  · intro fuel M ign b w st1 iid c cs hk hup hii
    obtain ⟨hlh, hhi⟩ := upper_key_ne key c cs hk hup
    obtain ⟨c0, hc0⟩ := gcbl_str_ok M key "default" (by decide)
    have hlhb : (key == "listHandler") = false := by simp [hlh]
    have hhib : (key == "hasIdentifier") = false := by simp [hhi]
    constructor
    · simp only [fill_class_map, dlookup_cons, dlookup_nil, hlhb,
        Bool.false_eq_true, if_false, Option.getD_none, fillFields, hhib,
        hc0, except_bind_ok, hk, hup, if_true, hii, List.all_cons,
        List.all_nil, beq_self_eq_true, Bool.and_true, Bool.not_true,
        dinsert, dcontains, dlookup, List.find?, Option.map, Option.isSome,
        List.nil_append]
    · have h3 := interimId_classMap st key [("hasIdentifier", w)]
      rw [hii] at h3
      exact h3

theorem C8_interim_identifier_witness :
    interimId ⟨0, []⟩ "Person"
        [("hasIdentifier", .str "pid"), ("pid", .str "42")]
      = (⟨0, []⟩, "Person_42") :=
  (C8_interim_identifier ⟨0, []⟩ "Person").1
    [("hasIdentifier", .str "pid"), ("pid", .str "42")]
    (.str "pid") (.str "42") rfl rfl

/-- A kernel-computable token stream for concrete pipeline runs. -/
def tok0 (n : Nat) : String := "u" ++ Nat.repr n

/-- A canonical document whose uppercase key `Widget` resolves to no ontology
class (the label maps are empty). -/
def canonC7 : Json := .obj [("Widget",
  .obj [("hasIdentifier", .str "id"), ("id", .str "1"), ("x", .int 2)])]

/-- **C7** (counterexample): the claim says a type whose label cannot be
resolved appears in the final output as the literal label text.  Running the
full pipeline on `canonC7` with empty label maps, the minted entity's type
list is `["default"]` — the literal string `"default"` (the hard-coded
resolver fallback of `__fill_class_map`), not the entity's label text
`"Widget"`. -/
theorem C7_counterexample :
    mapper_map emptyLabelMaps (.obj []) "entity" "http://e/" [] tok0 canonC7
      = .ok [.obj [("@type", .arr [.str "default"]),
                   ("@id", .str "http://e/u0"),
                   (rdfsLabel, .str "u0 Widget"),
                   ("id", .str "1"),
                   ("x", .int 2),
                   ("@context", .obj [])]] := rfl

/-- **C7** (amended): for every minted entity, the type list is the
resolution of its uppercase key **with the literal fallback `"default"`**
(not the key's own text), followed by the resolved entries of an
`additionalTypes` array; in that array, falsy entries and entries that strip
to blank are skipped, a truthy non-blank entry contributes its resolution
with the raw label as default, so an *additional* type that resolves nowhere
degrades to its literal text — while an unresolvable *primary* key degrades
to the literal string `"default"` (see `C7_counterexample`). -/
theorem C7_type_list (M : LabelMaps) :
    (∀ (fuel : Nat) (ign : List String) (n : Nat) (b : Bool)
        (key idv : String) (ats : List String) (cls : Json)
        (extra : List Json) (c : Char) (cs : List Char) (L : String),
      key.data = c :: cs → c.isUpper = true →
      idv ≠ "hasIdentifier" → idv ≠ "additionalTypes" →
      get_class_by_label M (.str key) (.str "default") = .ok cls →
      buildTypes M (ats.map Json.str) = .ok extra →
      resolveKey M "label" rdfsLabel = .ok L → L ≠ "@type" → L ≠ "@id" →
      L ≠ "additionalTypes" →
      fill_class_map (fuel + 5) M ign ⟨n, []⟩
          (.obj [(key, .obj [("hasIdentifier", .str idv),
                             ("additionalTypes", .arr (ats.map Json.str))])]) b
        = .ok (⟨n, [(key ++ "_" ++ idv,
              [("@type", .arr (cls :: extra)),
               ("@id", .str (key ++ "_" ++ idv)),
               (L, .str key),
               ("additionalTypes",
                .arr ((ats.map Json.str).map (fun v => .obj [("@value", v)])))])]⟩,
           .obj [("@id", .str (key ++ "_" ++ idv))])) ∧
    (∀ (a : Json) (rest : List Json), falsy a = true →
      buildTypes M (a :: rest) = buildTypes M rest) ∧
    (∀ (s : String) (rest : List Json), s ≠ "" → pyStrip s = "" →
      buildTypes M (.str s :: rest) = buildTypes M rest) ∧
    (∀ (s : String) (rest : List Json) (r : Json), s ≠ "" → pyStrip s ≠ "" →
      get_class_by_label M (.str s) (.str s) = .ok r →
      buildTypes M (.str s :: rest)
        = (buildTypes M rest).map (fun l => r :: l)) ∧
    (∀ (s : String) (rest : List Json), noMapHit M (.str s) → s ≠ "" →
      pyStrip s ≠ "" →
      buildTypes M (.str s :: rest)
        = (buildTypes M rest).map (fun l => Json.str s :: l)) := by
  refine ⟨?_, ?_, ?_, ?_, ?_⟩
  · intro fuel ign n b key idv ats cls extra c cs L hk hup hidv1 hidv2 hc hb
      hL hL2 hL3 hL4
    obtain ⟨hlh, hhi⟩ := upper_key_ne key c cs hk hup
    obtain ⟨a0, ha0⟩ := gcbl_str_ok M "additionalTypes" "default" (by decide)
    obtain ⟨h0, hh0⟩ := gcbl_str_ok M "hasIdentifier" "default" (by decide)
    have hlhb : (key == "listHandler") = false := by simp [hlh]
    have hhib : (key == "hasIdentifier") = false := by simp [hhi]
    have hiv1 : (idv == "hasIdentifier") = false := by simp [hidv1]
    have hiv2 : (idv == "additionalTypes") = false := by simp [hidv2]
    have hiv3 : ("hasIdentifier" == idv) = false := by simp [Ne.symm hidv1]
    have hiv4 : ("additionalTypes" == idv) = false := by simp [Ne.symm hidv2]
    have hL2a : ("@type" == L) = false := by simp [Ne.symm hL2]
    have hL3a : ("@id" == L) = false := by simp [Ne.symm hL3]
    have hL4a : ("additionalTypes" == L) = false := by simp [Ne.symm hL4]
    have hL2b : (L == "@type") = false := by simp [hL2]
    have hL3b : (L == "@id") = false := by simp [hL3]
    have hL4b : (L == "additionalTypes") = false := by simp [hL4]
    simp [fill_class_map, fillFields, interimId, pyGet, dinsert, dcontains,
      dlookup, classMapStep, inListHandler, is_primitive, except_bind_ok,
      hc, hb, hL, ha0, hh0, hk, hup, hlhb, hhib, hiv1, hiv2, hiv3, hiv4,
      hL2a, hL3a, hL4a, hL2b, hL3b, hL4b, pyStr, List.find?, List.all,
      dupdate]
  · intro a rest h
    conv_lhs => unfold buildTypes
    simp [h]
  · intro s rest hs h
    have h1 : falsy (.str s) = false := by simp [falsy, hs]
    conv_lhs => unfold buildTypes
    simp [h1, h]
  · intro s rest r hs h hr
    have h1 : falsy (.str s) = false := by simp [falsy, hs]
    have h2 : (pyStrip s == "") = false := by simp [h]
    conv_lhs => unfold buildTypes
    simp only [h1, Bool.false_eq_true, if_false, h2, hr, except_bind_ok]
    cases buildTypes M rest <;> rfl
  · intro s rest hmiss hs h
    have hr : get_class_by_label M (.str s) (.str s) = .ok (.str s) := by
      rw [gcbl_str_spec]
      unfold noMapHit at hmiss
      rw [hmiss]
      simp [falsy, hs]
    have h1 : falsy (.str s) = false := by simp [falsy, hs]
    have h2 : (pyStrip s == "") = false := by simp [h]
    conv_lhs => unfold buildTypes
    simp only [h1, Bool.false_eq_true, if_false, h2, hr, except_bind_ok]
    cases buildTypes M rest <;> rfl

theorem C7_type_list_witness :
    fill_class_map 5 emptyLabelMaps [] ⟨0, []⟩
        (.obj [("Widget", .obj [("hasIdentifier", .str "1"),
                ("additionalTypes", .arr [.str "Blue", .str ""])])]) false
      = .ok (⟨0, [("Widget_1",
            [("@type", .arr [.str "default", .str "Blue"]),
             ("@id", .str "Widget_1"),
             (rdfsLabel, .str "Widget"),
             ("additionalTypes",
              .arr [.obj [("@value", .str "Blue")],
                    .obj [("@value", .str "")]])])]⟩,
         .obj [("@id", .str "Widget_1")]) :=
  ((C7_type_list emptyLabelMaps).1 0 [] 0 false "Widget" "1" ["Blue", ""]
    (.str "default") [.str "Blue"] 'W' ['i', 'd', 'g', 'e', 't'] rdfsLabel
    rfl rfl (by decide) (by decide) rfl rfl rfl (by decide) (by decide)
    (by decide)).trans rfl

mutual
theorem jeq_refl : ∀ j : Json, jeq j j = true
  | .null => rfl
  | .bool b => by simp [jeq]
  | .int n => by simp [jeq]
  | .str s => by simp [jeq]
  | .arr xs => by simp [jeq, jeqList_refl xs]
  | .obj fs => by simp [jeq, jeqFields_refl fs]

theorem jeqList_refl : ∀ xs : List Json, jeqList xs xs = true
  | [] => rfl
  | x :: xs => by simp [jeqList, jeq_refl x, jeqList_refl xs]

theorem jeqFields_refl : ∀ fs : List (String × Json), jeqFields fs fs = true
  | [] => rfl
  | (k, v) :: fs => by simp [jeqFields, jeq_refl v, jeqFields_refl fs]
end

/-- **C9**: for a scalar value under a key other than `hasIdentifier` —
(1) if the key is in the ignore list, the mapped output wraps the value as
the reference `{"@id": resolved}` where `resolved` is the resolver's result
with the raw value as default; (2) if the key is not in the ignore list, the
scalar is kept as-is; (3) the Identity Assigner leaves a reference whose
parent key is in the (resolved) ignore-entity list completely untouched — the
identity state (uuid stream and interim-to-final map) comes back unchanged,
so no fresh final identifier is ever minted for it; and (4) the resolved form
of an ignore-listed key is always a member of the ignore-entity list that the
Identity Assigner consults. -/
theorem C9_ignore_list_scalars :
    (∀ (fuel : Nat) (M : LabelMaps) (ign : List String) (st : FillState)
        (lh v r : Json) (k : String) (c : Char) (cs : List Char),
      k.data = c :: cs → k ≠ "listHandler" → k ≠ "hasIdentifier" →
      scalarJson v = true → ign.contains k = true →
      get_class_by_label M v v = .ok r →
      fillFields (fuel + 2) M ign st lh [(k, v)] []
        = .ok (st, [(k, .obj [("@id", r)])])) ∧
    (∀ (fuel : Nat) (M : LabelMaps) (ign : List String) (st : FillState)
        (lh v : Json) (k : String) (c : Char) (cs : List Char),
      k.data = c :: cs → k ≠ "listHandler" → k ≠ "hasIdentifier" →
      scalarJson v = true → ign.contains k = false →
      fillFields (fuel + 2) M ign st lh [(k, v)] []
        = .ok (st, [(k, v)])) ∧
    (∀ (fuel : Nat) (M : LabelMaps) (ignEnt : List Json) (pref ns : String)
        (tok : Nat → String) (st : IdState) (pk : Json) (w : Json),
      ignEnt.contains pk = true → scalarJson w = true →
      set_uuid (fuel + 3) M ignEnt pref ns tok st (.obj [("@id", w)]) pk
        = .ok (st, .obj [("@id", w)])) ∧
    (∀ (M : LabelMaps) (ign : List String) (ignEnt : List Json) (key : String)
        (r : Json),
      key ∈ ign → create_entity_instation_entity_list M ign = .ok ignEnt →
      get_class_by_label M (.str key) (.str key) = .ok r →
      ignEnt.contains r = true) := by
  refine ⟨?_, ?_, ?_, ?_⟩
  · intro fuel M ign st lh v r k c cs hk hlh hhi hv hmem hr
    have hm : k ∈ ign := by simpa using hmem
    obtain ⟨c0, hc0⟩ := gcbl_str_ok M k "default" (by decide)
    have hlhb : (k == "listHandler") = false := by simp [hlh]
    have hhib : (k == "hasIdentifier") = false := by simp [hhi]
    cases v with
    | arr xs => simp [scalarJson] at hv
    | obj fs => simp [scalarJson] at hv
    | null =>
      simp [fillFields, hlhb, hhib, hc0, except_bind_ok, hk, hm, hr,
        dinsert, dcontains, dlookup, List.find?]
    | bool b =>
      simp [fillFields, hlhb, hhib, hc0, except_bind_ok, hk, hm, hr,
        dinsert, dcontains, dlookup, List.find?]
    | int n =>
      simp [fillFields, hlhb, hhib, hc0, except_bind_ok, hk, hm, hr,
        dinsert, dcontains, dlookup, List.find?]
    | str s =>
      simp [fillFields, hlhb, hhib, hc0, except_bind_ok, hk, hm, hr,
        dinsert, dcontains, dlookup, List.find?]
  · intro fuel M ign st lh v k c cs hk hlh hhi hv hmem
    have hm : ¬(k ∈ ign) := by simpa using hmem
    obtain ⟨c0, hc0⟩ := gcbl_str_ok M k "default" (by decide)
    have hlhb : (k == "listHandler") = false := by simp [hlh]
    have hhib : (k == "hasIdentifier") = false := by simp [hhi]
    cases v with
    | arr xs => simp [scalarJson] at hv
    | obj fs => simp [scalarJson] at hv
    | null =>
      simp [fillFields, hlhb, hhib, hc0, except_bind_ok, hk, hm,
        dinsert, dcontains, dlookup, List.find?]
    | bool b =>
      simp [fillFields, hlhb, hhib, hc0, except_bind_ok, hk, hm,
        dinsert, dcontains, dlookup, List.find?]
    | int n =>
      simp [fillFields, hlhb, hhib, hc0, except_bind_ok, hk, hm,
        dinsert, dcontains, dlookup, List.find?]
    | str s =>
      simp [fillFields, hlhb, hhib, hc0, except_bind_ok, hk, hm,
        dinsert, dcontains, dlookup, List.find?]
  · intro fuel M ignEnt pref ns tok st pk w hig hw
    cases w with
    | arr xs => simp [scalarJson] at hw
    | obj fs => simp [scalarJson] at hw
    | null => simp [set_uuid, suFields, hig, except_bind_ok]
    | bool b => simp [set_uuid, suFields, hig, except_bind_ok]
    | int n => simp [set_uuid, suFields, hig, except_bind_ok]
    | str s => simp [set_uuid, suFields, hig, except_bind_ok]
  · intro M ign ignEnt key r hmem
    induction ign generalizing ignEnt with
    | nil => simp at hmem
    | cons a t ih =>
      intro hok hr
      simp only [create_entity_instation_entity_list] at hok
      cases ha : get_class_by_label M (.str a) (.str a) with
      | error e =>
        rw [ha] at hok
        simp only [except_bind_err] at hok
        exact absurd hok (by simp)
      | ok b =>
        rw [ha] at hok
        simp only [except_bind_ok] at hok
        cases ht : create_entity_instation_entity_list M t with
        | error e =>
          rw [ht] at hok
          simp only [except_bind_err] at hok
          exact absurd hok (by simp)
        | ok bs =>
          rw [ht] at hok
          simp only [except_bind_ok] at hok
          injection hok with h2
          subst h2
          rcases List.mem_cons.mp hmem with rfl | hmt
          · have hrb : b = r := by
              injection ha.symm.trans hr
            subst hrb
            have hself : (b == b) = true := jeq_refl b
            simp [List.contains_cons, hself]
          · have hc := ih bs hmt ht hr
            simp [List.contains_cons, hc]

theorem C9_ignore_list_scalars_witness :
    set_uuid 3 emptyLabelMaps [.str "ex:unit"] "entity" "http://e/" tok0
        ⟨0, []⟩ (.obj [("@id", .str "ex:Celsius")]) (.str "ex:unit")
      = .ok (⟨0, []⟩, .obj [("@id", .str "ex:Celsius")]) :=
  C9_ignore_list_scalars.2.2.1 0 emptyLabelMaps [.str "ex:unit"] "entity"
    "http://e/" tok0 ⟨0, []⟩ (.str "ex:unit") (.str "ex:Celsius") rfl rfl

/-- **C10**: (1) for an uppercase-keyed entity whose value object contains an
uppercase-keyed child object, the recursive sub-result records the child's
reference under the key `"@id"`, so copying the sub-result into the parent's
descriptor overwrites the parent's own `"@id"`: the descriptor stored under
the parent's interim identifier `Parent_p` carries the child's identifier
`Child_c` in its `"@id"` slot (while keeping the parent's type and label);
(2) among several uppercase-keyed siblings in one object, each sets
`tmp["@id"]`, so only the last sibling's identifier reference survives at
that tree position. -/
theorem C10_child_id_overwrites_parent :
    (∀ (fuel : Nat) (M : LabelMaps) (n : Nat) (b : Bool) (p c0 v L : String),
      resolveKey M "label" rdfsLabel = .ok L →
      L ≠ "@type" → L ≠ "@id" → L ≠ "pid" → L ≠ "cid" → L ≠ "x" →
      ∃ Dp Dc : Dict,
        fill_class_map (fuel + 9) M [] ⟨n, []⟩
            (.obj [("Parent",
              .obj [("hasIdentifier", .str "pid"), ("pid", .str p),
                    ("Child", .obj [("hasIdentifier", .str "cid"),
                                    ("cid", .str c0), ("x", .str v)])])]) b
          = .ok (⟨n, [("Child_" ++ c0, Dc), ("Parent_" ++ p, Dp)]⟩,
                 .obj [("@id", .str ("Parent_" ++ p))])
        ∧ dlookup Dp "@id" = some (.str ("Child_" ++ c0))) ∧
    (∀ (fuel : Nat) (M : LabelMaps) (st : FillState) (b : Bool)
        (b1 c1 : String), b1 ≠ "hasIdentifier" → c1 ≠ "hasIdentifier" →
      fill_class_map (fuel + 4) M [] st
          (.obj [("B", .obj [("hasIdentifier", .str b1)]),
                 ("C", .obj [("hasIdentifier", .str c1)])]) b
        = .ok (st, .obj [("@id", .str ("C_" ++ c1))])) := by
  constructor
  · intro fuel M n b p c0 v L hL hL1 hL2 hL3 hL4 hL5
    obtain ⟨x1, hx1⟩ := gcbl_str_ok M "Parent" "default" (by decide)
    obtain ⟨x2, hx2⟩ := gcbl_str_ok M "hasIdentifier" "default" (by decide)
    obtain ⟨x3, hx3⟩ := gcbl_str_ok M "pid" "default" (by decide)
    obtain ⟨x4, hx4⟩ := gcbl_str_ok M "Child" "default" (by decide)
    obtain ⟨x5, hx5⟩ := gcbl_str_ok M "cid" "default" (by decide)
    obtain ⟨x6, hx6⟩ := gcbl_str_ok M "x" "default" (by decide)
    have hL1a : ("@type" == L) = false := by simp [Ne.symm hL1]
    have hL2a : ("@id" == L) = false := by simp [Ne.symm hL2]
    have hL3a : (L == "pid") = false := by simp [hL3]
    have hL4a : (L == "cid") = false := by simp [hL4]
    have hL5a : (L == "x") = false := by simp [hL5]
    have hids : ("Child_" ++ c0 == "Parent_" ++ p) = false := by
      have hne : ("Child_" ++ c0) ≠ ("Parent_" ++ p) := by
        intro h
        have h2 := congrArg String.data h
        rw [String.data_append, String.data_append] at h2
        rw [show ("Child_".data) = ['C', 'h', 'i', 'l', 'd', '_'] from rfl,
            show ("Parent_".data) = ['P', 'a', 'r', 'e', 'n', 't', '_']
              from rfl] at h2
        simp at h2
      simp [hne]
    refine ⟨[("@type", .arr [.str x1]), ("@id", .str ("Child_" ++ c0)),
             (L, .str "Parent"), ("pid", .str p)],
            [("@type", .arr [.str x4]), ("@id", .str ("Child_" ++ c0)),
             (L, .str "Child"), ("cid", .str c0), ("x", .str v)], ?_, ?_⟩
    · simp [fill_class_map, fillFields, interimId, pyGet, dinsert, dcontains,
        dlookup, classMapStep, except_bind_ok, hx1, hx2, hx3, hx4, hx5, hx6,
        hL, hL1a, hL2a, hL3a, hL4a, hL5a, hL1, hL2, hL3, hL4, hL5, hids,
        pyStr, List.find?, List.all, inListHandler, dupdate]
    · simp [dlookup_cons]
  · intro fuel M st b b1 c1 hb1 hc1
    obtain ⟨x1, hx1⟩ := gcbl_str_ok M "B" "default" (by decide)
    obtain ⟨x2, hx2⟩ := gcbl_str_ok M "C" "default" (by decide)
    have hb1a : ("hasIdentifier" == b1) = false := by simp [Ne.symm hb1]
    have hc1a : ("hasIdentifier" == c1) = false := by simp [Ne.symm hc1]
    simp [fill_class_map, fillFields, interimId, pyGet, dinsert, dcontains,
      dlookup, except_bind_ok, hx1, hx2, hb1a, hc1a, pyStr, List.find?,
      List.all]

theorem C10_child_id_overwrites_parent_witness :
    fill_class_map 4 emptyLabelMaps [] ⟨0, []⟩
        (.obj [("B", .obj [("hasIdentifier", .str "b")]),
               ("C", .obj [("hasIdentifier", .str "c")])]) false
      = .ok (⟨0, []⟩, .obj [("@id", .str "C_c")]) :=
  (C10_child_id_overwrites_parent.2 0 emptyLabelMaps ⟨0, []⟩ false "b" "c"
    (by decide) (by decide)).trans rfl
